import Mathlib

/-!
Shallow embedding of the LeetCodeMCP tool server (`src/main.py`) and proofs
about it.  Python strings are modelled as `String` (with helper primitives on
`List Char` mirroring `str.find`, `in`, and `str.replace`), the remote GraphQL
endpoint is modelled as explicit oracle functions passed to each operation, the
local file system as a partial map from path strings to contents, and the two
unbounded recursions in the source (the pagination `while True` loop and the
self-recursion of `get_leetcode_question_desc`) as fuel-indexed functions that
return `none` when no amount of steps provided suffices.  Each operation also
returns the list of remote requests it issued, so that "no request is made"
properties can be stated exactly.
-/

namespace LeetCodeMCP

/-! ### Python string primitives (`str.find`, `in`, `str.replace`) on `List Char` -/

/-- Index of the first occurrence of `pat` as a substring, mirroring Python
`s.find(pat)` (which returns `-1`, modelled here as `none`, when absent). -/
def strFind (pat : List Char) : List Char → Option Nat
  | [] => if pat.isEmpty then some 0 else none
  | c :: rest =>
    if pat.isPrefixOf (c :: rest) then some 0
    else (strFind pat rest).map (· + 1)

/-- Substring containment, mirroring Python `pat in s`. -/
def containsSub (pat : List Char) : List Char → Bool
  | [] => pat.isEmpty
  | c :: rest => pat.isPrefixOf (c :: rest) || containsSub pat rest

/-- Replace leftmost non-overlapping occurrences of `pat` by `repl`, spending
one unit of fuel per produced chunk.  With `fuel ≥ s.length` and a non-empty
pattern this is Python `str.replace`; the fuel keeps the recursion structural
(each step removes at least one character when the pattern is non-empty). -/
def replaceGo (pat repl : List Char) : Nat → List Char → List Char
  | _, [] => []
  | 0, s => s
  | fuel + 1, c :: rest =>
    if pat.isPrefixOf (c :: rest)
    then repl ++ replaceGo pat repl fuel (rest.drop (pat.length - 1))
    else c :: replaceGo pat repl fuel rest

/-- Python `s.replace(pat, repl)`.  (For the empty pattern Python intersperses
`repl` between all characters; the source only ever uses non-empty patterns.) -/
def strReplace (pat repl s : List Char) : List Char :=
  match pat with
  | [] => repl ++ s.flatMap (fun c => [c] ++ repl)
  | _ :: _ => replaceGo pat repl s.length s

/-! ### Identifier Normalizer (`_folder_name_to_problem_id`, src/main.py:233) -/

def _folder_name_to_problem_id (folder_name : String) : String :=
  -- question_id = folder_name[folder_name.find("_") + 1:]
  let question_id : List Char :=
    match strFind [ '_' ] folder_name.data with
    | some i => folder_name.data.drop (i + 1)
    | none => folder_name.data
  -- if "__" in question_id: question_id = question_id.replace("__", ".")
  let question_id :=
    if containsSub [ '_', '_' ] question_id
    then strReplace [ '_', '_' ] [ '.' ] question_id else question_id
  -- if "_" in question_id: question_id = question_id.replace("_", " ")
  let question_id :=
    if containsSub [ '_' ] question_id
    then strReplace [ '_' ] [ ' ' ] question_id else question_id
  -- if "JZ_Offer" in question_id: question_id = question_id.replace("JZ_Offer", "剑指Offer")
  let question_id :=
    if containsSub "JZ_Offer".data question_id
    then strReplace "JZ_Offer".data "剑指Offer".data question_id else question_id
  -- if "Interview" in question_id: question_id = question_id.replace("Interview", "面试题")
  let question_id :=
    if containsSub "Interview".data question_id
    then strReplace "Interview".data "面试题".data question_id else question_id
  String.mk question_id


/-! ### Model of the `pathlib.Path` operations used by the source

The source uses `Path(p).parent`, `Path(p).name` and `dir / filename` (POSIX
semantics).  `pathlib` drops empty and `"."` components when parsing, `parent`
of a single-component relative path is `"."`, and `name` of `"."`, `"/"` or
`""` is the empty string. -/

/-- Split a character list on `'/'`. -/
def splitOnSlash : List Char → List (List Char)
  | [] => [[]]
  | c :: rest =>
    match splitOnSlash rest with
    | [] => [[]]
    | g :: gs => if c = '/' then [] :: g :: gs else (c :: g) :: gs

/-- The non-empty, non-`"."` path components, as `pathlib` parses them. -/
def pathComponents (p : String) : List String :=
  ((splitOnSlash p.data).map String.mk).filter fun c => c ≠ "" && c ≠ "."

def pathIsAbsolute (p : String) : Bool := [ '/' ].isPrefixOf p.data

/-- Model of `Path(p).name`. -/
def pathName (p : String) : String := (pathComponents p).getLastD ""

/-- Join the components back into a path string. -/
def joinComponents (isAbs : Bool) (comps : List String) : String :=
  match comps with
  | [] => if isAbs then "/" else "."
  | _ => (if isAbs then "/" else "") ++ String.intercalate "/" comps

/-- Model of `Path(p).parent`: drop the last component (keeping the root). -/
def pathParent (p : String) : String :=
  joinComponents (pathIsAbsolute p) (pathComponents p).dropLast

/-- Model of `str(Path(d) / f)` for a plain file name `f`. -/
def pathJoin (d f : String) : String :=
  if d = "." then f else if d = "/" then "/" ++ f else d ++ "/" ++ f


/-! ### Slug Resolver (`find_leetcode_question_slug_by_problem_id`, src/main.py:370)

The remote question-list endpoint is modelled as an oracle
`server : String → Nat → FetchOutcome` giving, for each search keyword and page
number, either a well-shaped response page or an exception (covering network
errors, non-success statuses and malformed JSON — the code's single broad
`except`).  The `while True:` pagination loop is modelled with fuel: `none`
means the loop did not finish within the given number of iterations (the
source has no page cap, so an always-`hasMore` server loops forever).  The
function also returns the list of page requests it issued. -/

structure Question where
  questionFrontendId : String
  titleSlug : String
deriving DecidableEq

structure QuestionPage where
  questions : List Question
  hasMore : Bool
deriving DecidableEq

inductive FetchOutcome where
  | ok (page : QuestionPage)
  | exn
deriving DecidableEq

/-- One request to `problemsetQuestionListV2`: the varying fields of the
variables object (`searchKeyword`, `skip`, `limit`). -/
structure PageRequest where
  searchKeyword : String
  skip : Nat
  limit : Nat
deriving DecidableEq

def page_size : Nat := 100

/-- Body of the `while True:` pagination loop.  Per iteration: issue the page
request; on exception return the sentinel (the broad `except` around the loop);
otherwise scan the page's questions in order for an exact
`questionFrontendId` match; if none and `hasMore` is false, break to the
sentinel; otherwise continue with the next page. -/
def findSlugLoop (server : String → Nat → FetchOutcome) (pid : String) :
    Nat → Nat → Option (String × List PageRequest)
  | 0, _ => none
  | fuel + 1, page_no =>
    let req : PageRequest := ⟨pid, page_no * page_size, page_size⟩
    match server pid page_no with
    | .exn => some ("No slug found", [req])
    | .ok page =>
      match page.questions.find? (fun q => q.questionFrontendId == pid) with
      | some q => some (q.titleSlug, [req])
      | none =>
        if page.hasMore then
          match findSlugLoop server pid fuel (page_no + 1) with
          | some (r, reqs) => some (r, req :: reqs)
          | none => none
        else
          some ("No slug found", [req])

def find_leetcode_question_slug_by_problem_id (server : String → Nat → FetchOutcome)
    (fuel : Nat) (frontend_problem_id : String) : Option (String × List PageRequest) :=
  findSlugLoop server frontend_problem_id fuel 0

/-- Translation of `find_leetcode_question_slug` (src/main.py:445): derive the keyword from
the parent directory's name and resolve it. -/
def find_leetcode_question_slug (server : String → Nat → FetchOutcome)
    (fuel : Nat) (file_path : String) : Option (String × List PageRequest) :=
  find_leetcode_question_slug_by_problem_id server fuel
    (_folder_name_to_problem_id (pathName (pathParent file_path)))

/-- The single-page mock endpoint of the end-to-end scenario: every page is
`hasMore = false` with the one question `{"42", "answer-slug"}`. -/
def mockServer : String → Nat → FetchOutcome :=
  fun _ _ => .ok ⟨[⟨"42", "answer-slug"⟩], false⟩


/-! ### Description Fetcher (src/main.py:245, 341, 359)

The content endpoint is modelled as an oracle from the varying request fields
(operation name and `titleSlug` variable) to either the extracted content
string (`data.question.translatedContent` resp. `data.question.content`) or an
error covering transport and shape failures. -/

/-- The varying fields of a `questionTranslations` / `questionContent` POST:
which of the two fixed query documents is sent, and the `titleSlug` variable. -/
structure DescRequest where
  operationName : String
  titleSlug : String
deriving DecidableEq

/-- Translation of `_get_leetcode_question_desc_by_slug` (src/main.py:245): choose the
translated or original content query by the language setting, post it with the
given string as the `titleSlug` variable, and extract the response field; any
exception yields "No description found".  Returns the result together with the
single request issued. -/
def _get_leetcode_question_desc_by_slug (language : String)
    (descServer : DescRequest → Except Unit String) (slug : String) :
    String × List DescRequest :=
  let req : DescRequest :=
    if language == "zh-CN" then ⟨"questionTranslations", slug⟩
    else ⟨"questionContent", slug⟩
  match descServer req with
  | .ok content => (content, [req])
  | .error _ => ("No description found", [req])

/-- Translation of `get_leetcode_question_desc_by_problem_id` (src/main.py:359): forwards the
problem id itself as the `titleSlug` argument, with no slug resolution. -/
def get_leetcode_question_desc_by_problem_id (language : String)
    (descServer : DescRequest → Except Unit String) (problem_id : String) :
    String × List DescRequest :=
  _get_leetcode_question_desc_by_slug language descServer problem_id

/-- Translation of `get_leetcode_question_desc` (src/main.py:341): look for the sibling cache
file next to `file_path`; if present return its raw contents.  Otherwise
resolve the folder-derived identifier to a slug and recurse **on itself** with
the slug in the `file_path` position (src/main.py:357 — the slug-based helper
`_get_leetcode_question_desc_by_slug` is never called from here).  The
self-recursion is modelled with fuel (`none` = no recursion depth suffices,
i.e. the Python call never returns normally); the trace collects the page
requests of the slug resolutions performed along the way. -/
def get_leetcode_question_desc (language : String) (fs : String → Option String)
    (server : String → Nat → FetchOutcome) (slugFuel : Nat) :
    Nat → String → Option (String × List PageRequest)
  | 0, _ => none
  | fuel + 1, file_path =>
    let dir_path := pathParent file_path
    let problem_file_name := if language == "zh-CN" then "problem_zh.md" else "problem.md"
    let problem_file_path := pathJoin dir_path problem_file_name
    match fs problem_file_path with
    | some text => some (text, [])
    | none =>
      match find_leetcode_question_slug server slugFuel file_path with
      | none => none
      | some (slug, reqs) =>
        match get_leetcode_question_desc language fs server slugFuel fuel slug with
        | none => none
        | some (r, reqs2) => some (r, reqs ++ reqs2)

/-! ### Solution Fetcher (`get_leetcode_question_solution_by_problem_id`, src/main.py:286)

Two further oracles: `listServer` answers a `questionTopicsList` request
(question slug and `userInput` search term) with either a well-shaped article
list or an exception (the broad per-author `except`); `contentServer` models
`_get_leetcode_article` 's endpoint, returning the article's `content` field
(possibly empty) or `none` when the fetch fails or the field is missing —
`_get_leetcode_article` itself catches every exception and returns `None`
(src/main.py:268). -/

structure AuthorProfile where
  realName : String
  userSlug : String
deriving DecidableEq

/-- One element of `data.questionSolutionArticles.edges`: the fields the code
reads from `edge["node"]` (`slug` and `author.profile`). -/
structure ArticleNode where
  slug : String
  author : AuthorProfile
deriving DecidableEq

inductive ListOutcome where
  | ok (articles : List ArticleNode)
  | exn
deriving DecidableEq

/-- The varying variables of a `questionTopicsList` POST (the code fixes
`skip = 0`, `first = 15`, `orderBy = "DEFAULT"`, `tagSlugs = []`). -/
structure ListRequest where
  questionSlug : String
  skip : Nat
  first : Nat
  userInput : String
deriving DecidableEq

def WANTED_AUTHORS : List (String × String) :=
  [("宫水三叶", "ac_oier"), ("灵茶山艾府", "endlesscheng")]

/-- Translation of `_get_leetcode_article` (src/main.py:268): fetch an article's content by
slug; never raises (returns `none` on any failure). -/
def _get_leetcode_article (contentServer : String → Option String)
    (article_slug : String) : Option String :=
  contentServer article_slug

/-- Inner `for article in articles:` loop (src/main.py:316): scan the listing
in server order; on an article whose profile `realName` equals the author name
or whose profile `userSlug` equals the author handle, fetch its content and
return it if truthy (non-`None` and non-empty); otherwise keep scanning. -/
def scanArticles (contentServer : String → Option String)
    (author_name author_slug : String) : List ArticleNode → Option String
  | [] => none
  | a :: rest =>
    if a.author.realName == author_name || a.author.userSlug == author_slug then
      match _get_leetcode_article contentServer a.slug with
      | some content =>
        if content ≠ "" then some content
        else scanArticles contentServer author_name author_slug rest
      | none => scanArticles contentServer author_name author_slug rest
    else scanArticles contentServer author_name author_slug rest

/-- Outer `for author_name, author_slug in WANTED_AUTHORS:` loop
(src/main.py:299): issue the listing request for each author in order; a
per-author exception is logged and the next author tried; the first truthy
content found is returned at once; falling off the loop yields the error
sentinel.  Returns the result together with the listing requests issued. -/
def authorLoop (listServer : String → String → ListOutcome)
    (contentServer : String → Option String) (slug : String) :
    List (String × String) → String × List ListRequest
  | [] => ("Error fetching solution article", [])
  | (author_name, author_slug) :: rest =>
    let req : ListRequest := ⟨slug, 0, 15, author_name⟩
    match listServer slug author_name with
    | .exn =>
      let (r, t) := authorLoop listServer contentServer slug rest
      (r, req :: t)
    | .ok articles =>
      match scanArticles contentServer author_name author_slug articles with
      | some content => (content, [req])
      | none =>
        let (r, t) := authorLoop listServer contentServer slug rest
        (r, req :: t)

/-- Translation of `get_leetcode_question_solution_by_problem_id` (src/main.py:286): resolve
the slug first; on the sentinel short-circuit to "No solution article found";
otherwise run the author loop.  `none` propagates a diverging slug
resolution. -/
def get_leetcode_question_solution_by_problem_id
    (server : String → Nat → FetchOutcome) (fuel : Nat)
    (listServer : String → String → ListOutcome)
    (contentServer : String → Option String) (problem_id : String) :
    Option (String × List ListRequest) :=
  match find_leetcode_question_slug_by_problem_id server fuel problem_id with
  | none => none
  | some (slug, _) =>
    if slug == "No slug found" then some ("No solution article found", [])
    else some (authorLoop listServer contentServer slug WANTED_AUTHORS)

/-- Translation of `get_leetcode_question_solution` (src/main.py:329): derive the problem id
from the parent directory name and delegate. -/
def get_leetcode_question_solution (server : String → Nat → FetchOutcome)
    (fuel : Nat) (listServer : String → String → ListOutcome)
    (contentServer : String → Option String) (file_path : String) :
    Option (String × List ListRequest) :=
  get_leetcode_question_solution_by_problem_id server fuel listServer contentServer
    (_folder_name_to_problem_id (pathName (pathParent file_path)))

/-! ### Auxiliary notions used to state the claims -/

/-- Variant of `_folder_name_to_problem_id` with the `JZ_Offer` replacement
(step 4) removed, used to state that step 4 never alters the result. -/
def _folder_name_to_problem_id_skip_jz (folder_name : String) : String :=
  let question_id : List Char :=
    match strFind [ '_' ] folder_name.data with
    | some i => folder_name.data.drop (i + 1)
    | none => folder_name.data
  let question_id :=
    if containsSub [ '_', '_' ] question_id
    then strReplace [ '_', '_' ] [ '.' ] question_id else question_id
  let question_id :=
    if containsSub [ '_' ] question_id
    then strReplace [ '_' ] [ ' ' ] question_id else question_id
  let question_id :=
    if containsSub "Interview".data question_id
    then strReplace "Interview".data "面试题".data question_id else question_id
  String.mk question_id

/-- The page requests `⟨pid, start*100, 100⟩, ⟨pid, (start+1)*100, 100⟩, …`
issued for `k` consecutive pages. -/
def reqsFrom (pid : String) : Nat → Nat → List PageRequest
  | _, 0 => []
  | start, k + 1 => ⟨pid, start * page_size, page_size⟩ :: reqsFrom pid (start + 1) k

/-- Page `i` of the server's answer for keyword `pid` is well-shaped, contains
no question matching `pid`, and reports more pages. -/
def cleanPage (server : String → Nat → FetchOutcome) (pid : String) (i : Nat) : Prop :=
  ∃ p, server pid i = .ok p ∧
    p.questions.find? (fun q => q.questionFrontendId == pid) = none ∧
    p.hasMore = true

/-- The article's content fetch yields nothing truthy (`None` or `""`). -/
def contentFails (contentServer : String → Option String) (a : ArticleNode) : Prop :=
  _get_leetcode_article contentServer a.slug = none ∨
  _get_leetcode_article contentServer a.slug = some ""

/-- The article is not returned: either its author profile matches neither the
display name nor the handle, or its content is not truthy. -/
def articleRejected (contentServer : String → Option String)
    (author_name author_slug : String) (a : ArticleNode) : Prop :=
  (a.author.realName == author_name || a.author.userSlug == author_slug) = false
  ∨ contentFails contentServer a

/-- Trying this author produces nothing: the listing request raises, or it
returns a list on which the article scan comes up empty. -/
def authorFails (listServer : String → String → ListOutcome)
    (contentServer : String → Option String) (slug : String)
    (author : String × String) : Prop :=
  listServer slug author.1 = .exn ∨
  ∃ arts, listServer slug author.1 = .ok arts ∧
    scanArticles contentServer author.1 author.2 arts = none

/-! ### Concrete oracles for witnesses and counterexamples -/

/-- A file system with no files. -/
def emptyFs : String → Option String := fun _ => none

/-- A server answering every page request with an empty final page. -/
def benignServer : String → Nat → FetchOutcome := fun _ _ => .ok ⟨[], false⟩

/-- A listing server that raises on every request. -/
def exnListServer : String → String → ListOutcome := fun _ _ => .exn

/-- An article-content server on which every fetch fails. -/
def noneContentServer : String → Option String := fun _ => none

/-- A file system holding exactly the cached description of `1_Two_Sum`. -/
def cacheFs : String → Option String :=
  fun p => if p = "problems/1_Two_Sum/problem_zh.md" then some "CACHED" else none

/-- A question-list server that resolves the keyword "Two Sum" to the slug
"two-sum" on its only page and answers every other keyword with an empty
final page. -/
def pageServerC3 : String → Nat → FetchOutcome :=
  fun kw _ =>
    if kw = "Two Sum" then .ok ⟨[⟨"Two Sum", "two-sum"⟩], false⟩
    else .ok ⟨[], false⟩

/-- A content endpoint that knows the description of the slug "two-sum". -/
def descServerC3 : DescRequest → Except Unit String :=
  fun req => if req.titleSlug = "two-sum" then .ok "TWO-SUM-DESC" else .error ()

/-- Articles returned for the second allow-listed author: a non-matching one
followed by a matching one. -/
def artsC4 : List ArticleNode :=
  [⟨"art-1", ⟨"nobody", "someone"⟩⟩, ⟨"art-2", ⟨"灵茶山艾府", "endlesscheng"⟩⟩]

/-- A listing server that raises for the first allow-listed author and returns
`artsC4` for the second. -/
def listServerC4 : String → String → ListOutcome :=
  fun _ userInput => if userInput = "宫水三叶" then .exn else .ok artsC4

/-- Content is available exactly for the article "art-2". -/
def contentServerC4 : String → Option String :=
  fun aslug => if aslug = "art-2" then some "SOLUTION" else none

/-- A desc server that always fails. -/
def errDescServer : DescRequest → Except Unit String := fun _ => .error ()

/-! ## Lemmas about the string primitives -/

lemma strFind_eq_none_of_not_containsSub (pat l : List Char)
    (h : containsSub pat l = false) : strFind pat l = none := by
  induction l with
  | nil =>
    simp only [containsSub] at h
    simp [strFind, h]
  | cons c rest ih =>
    simp only [containsSub, Bool.or_eq_false_iff] at h
    simp [strFind, h.1, ih h.2]

lemma containsSub_single_iff (c : Char) (l : List Char) :
    containsSub [c] l = true ↔ c ∈ l := by
  induction l with
  | nil => simp [containsSub]
  | cons c' rest ih =>
    have hpre : [c].isPrefixOf (c' :: rest) = (c == c') := by
      simp [List.isPrefixOf]
    simp only [containsSub, hpre, Bool.or_eq_true, beq_iff_eq, ih, List.mem_cons]

lemma containsSub_single_false_iff (c : Char) (l : List Char) :
    containsSub [c] l = false ↔ c ∉ l := by
  rw [← containsSub_single_iff]
  simp

lemma mem_of_isPrefixOf : ∀ (p l : List Char), p.isPrefixOf l = true → ∀ c ∈ p, c ∈ l := by
  intro p
  induction p with
  | nil =>
    intro l _ c hc
    simp at hc
  | cons x xs ih =>
    intro l hp c hc
    cases l with
    | nil => simp [List.isPrefixOf] at hp
    | cons y ys =>
      simp only [List.isPrefixOf, Bool.and_eq_true, beq_iff_eq] at hp
      rcases List.mem_cons.mp hc with h | h
      · subst h
        rw [hp.1]
        exact List.mem_cons_self y ys
      · exact List.mem_cons_of_mem y (ih ys hp.2 c h)

lemma mem_of_containsSub (pat l : List Char) (h : containsSub pat l = true) :
    ∀ c ∈ pat, c ∈ l := by
  induction l with
  | nil =>
    simp only [containsSub, List.isEmpty_iff] at h
    simp [h]
  | cons c' rest ih =>
    simp only [containsSub, Bool.or_eq_true] at h
    intro c hc
    rcases h with h | h
    · exact mem_of_isPrefixOf pat (c' :: rest) h c hc
    · exact List.mem_cons_of_mem c' (ih h c hc)

lemma replaceGo_single_not_mem (c d : Char) (hne : d ≠ c) :
    ∀ (fuel : Nat) (s : List Char), s.length ≤ fuel →
      c ∉ replaceGo [c] [d] fuel s := by
  intro fuel
  induction fuel with
  | zero =>
    intro s hs
    have : s = [] := List.eq_nil_of_length_eq_zero (Nat.le_zero.mp hs)
    subst this
    simp [replaceGo]
  | succ fuel ih =>
    intro s hs
    match s with
    | [] => simp [replaceGo]
    | c' :: rest =>
      have hlen : rest.length ≤ fuel := by
        simp only [List.length_cons] at hs; omega
      by_cases hcc : c = c'
      · subst hcc
        have hstep : replaceGo [c] [d] (fuel + 1) (c :: rest)
            = d :: replaceGo [c] [d] fuel rest := by
          simp [replaceGo, List.isPrefixOf]
        rw [hstep]
        intro hmem
        rcases List.mem_cons.mp hmem with h | h
        · exact hne h.symm
        · exact ih rest hlen h
      · have hb : [c].isPrefixOf (c' :: rest) = false := by
          simp [List.isPrefixOf, hcc]
        have hstep : replaceGo [c] [d] (fuel + 1) (c' :: rest)
            = c' :: replaceGo [c] [d] fuel rest := by
          simp [replaceGo, hb]
        rw [hstep]
        intro hmem
        rcases List.mem_cons.mp hmem with h | h
        · exact hcc h
        · exact ih rest hlen h

lemma replaceGo_not_mem (c : Char) (pat repl : List Char) (hrepl : c ∉ repl) :
    ∀ (fuel : Nat) (s : List Char), c ∉ s → c ∉ replaceGo pat repl fuel s := by
  intro fuel
  induction fuel with
  | zero =>
    intro s hs
    match s with
    | [] => simp [replaceGo]
    | c' :: rest => simpa [replaceGo] using hs
  | succ fuel ih =>
    intro s hs
    match s with
    | [] => simp [replaceGo]
    | c' :: rest =>
      simp only [List.mem_cons, not_or] at hs
      by_cases hpre : pat.isPrefixOf (c' :: rest)
      · have hstep : replaceGo pat repl (fuel + 1) (c' :: rest)
            = repl ++ replaceGo pat repl fuel (rest.drop (pat.length - 1)) := by
          simp [replaceGo, hpre]
        rw [hstep]
        intro hmem
        rcases List.mem_append.mp hmem with h | h
        · exact hrepl h
        · exact ih _ (fun hm => hs.2 (List.mem_of_mem_drop hm)) h
      · have hb : pat.isPrefixOf (c' :: rest) = false := Bool.eq_false_iff.mpr hpre
        have hstep : replaceGo pat repl (fuel + 1) (c' :: rest)
            = c' :: replaceGo pat repl fuel rest := by
          simp [replaceGo, hb]
        rw [hstep]
        intro hmem
        rcases List.mem_cons.mp hmem with h | h
        · exact hs.1 h
        · exact ih rest hs.2 h

lemma step3_no_underscore (q2 : List Char) :
    containsSub [ '_' ]
      (if containsSub [ '_' ] q2 then strReplace [ '_' ] [ ' ' ] q2 else q2) = false := by
  by_cases h : containsSub [ '_' ] q2
  · rw [if_pos h]
    rw [containsSub_single_false_iff]
    show '_' ∉ replaceGo [ '_' ] [ ' ' ] q2.length q2
    exact replaceGo_single_not_mem '_' ' ' (by decide) q2.length q2 le_rfl
  · rw [if_neg h]
    exact Bool.eq_false_iff.mpr h

lemma jz_skip (q3 : List Char) (h : containsSub [ '_' ] q3 = false) :
    (if containsSub "JZ_Offer".data q3
     then strReplace "JZ_Offer".data "剑指Offer".data q3 else q3) = q3 := by
  have hc : containsSub "JZ_Offer".data q3 = false := by
    cases hc : containsSub "JZ_Offer".data q3
    · rfl
    · exact absurd (mem_of_containsSub _ _ hc '_' (by decide))
        ((containsSub_single_false_iff _ _).mp h)
  simp [hc]

lemma step5_no_underscore (q3 : List Char) (h : containsSub [ '_' ] q3 = false) :
    containsSub [ '_' ]
      (if containsSub "Interview".data q3
       then strReplace "Interview".data "面试题".data q3 else q3) = false := by
  by_cases hc : containsSub "Interview".data q3
  · rw [if_pos hc]
    rw [containsSub_single_false_iff]
    show '_' ∉ replaceGo "Interview".data "面试题".data q3.length q3
    exact replaceGo_not_mem '_' _ _ (by decide) q3.length q3
      ((containsSub_single_false_iff _ _).mp h)
  · rw [if_neg hc]
    exact h

/-- On a string with none of the four substrings every stage of
`_folder_name_to_problem_id` is the identity. -/
lemma folder_id_of_normalized (s : String)
    (h1 : containsSub [ '_' ] s.data = false)
    (h2 : containsSub [ '_', '_' ] s.data = false)
    (h3 : containsSub "JZ_Offer".data s.data = false)
    (h4 : containsSub "Interview".data s.data = false) :
    _folder_name_to_problem_id s = s := by
  unfold _folder_name_to_problem_id
  rw [strFind_eq_none_of_not_containsSub _ _ h1]
  simp [h1, h2, h3, h4]

/-! ## Claim theorems about the Identifier Normalizer -/

/-- C8: `_folder_name_to_problem_id` is a pure function (in this embedding it
is a plain function of its argument, with no oracle parameters), and on a
folder name containing none of the substrings `_`, `__`, `JZ_Offer`,
`Interview` applying it twice agrees with applying it once. -/
theorem claim_C8_normalizer_idempotent (s : String)
    (h1 : containsSub [ '_' ] s.data = false)
    (h2 : containsSub [ '_', '_' ] s.data = false)
    (h3 : containsSub "JZ_Offer".data s.data = false)
    (h4 : containsSub "Interview".data s.data = false) :
    _folder_name_to_problem_id (_folder_name_to_problem_id s)
      = _folder_name_to_problem_id s := by
  rw [folder_id_of_normalized s h1 h2 h3 h4]
  exact folder_id_of_normalized s h1 h2 h3 h4

theorem claim_C8_witness :
    _folder_name_to_problem_id (_folder_name_to_problem_id "Two Sum")
      = _folder_name_to_problem_id "Two Sum" :=
  claim_C8_normalizer_idempotent "Two Sum" (by decide) (by decide) (by decide) (by decide)

/-- C9: for every input, the result of `_folder_name_to_problem_id` contains
no underscore, and the whole function agrees with the variant that omits the
step-4 `JZ_Offer → 剑指Offer` replacement — that step never alters the string,
because step 3 has already removed every underscore. -/
theorem claim_C9_no_underscore_jz_dead (s : String) :
    containsSub [ '_' ] (_folder_name_to_problem_id s).data = false ∧
    _folder_name_to_problem_id s = _folder_name_to_problem_id_skip_jz s := by
  unfold _folder_name_to_problem_id _folder_name_to_problem_id_skip_jz
  cases hf : strFind [ '_' ] s.data with
  | none =>
    simp only [hf]
    generalize s.data = l
    have h3 := step3_no_underscore (if containsSub [ '_', '_' ] l
      then strReplace [ '_', '_' ] [ '.' ] l else l)
    rw [jz_skip _ h3]
    exact ⟨step5_no_underscore _ h3, rfl⟩
  | some i =>
    simp only [hf]
    generalize s.data.drop (i + 1) = l
    have h3 := step3_no_underscore (if containsSub [ '_', '_' ] l
      then strReplace [ '_', '_' ] [ '.' ] l else l)
    rw [jz_skip _ h3]
    exact ⟨step5_no_underscore _ h3, rfl⟩

/-- C10: the two documented input/output pairs of the Identifier Normalizer:
`"1_Two_Sum" ↦ "Two Sum"` and `"面试题_17__01" ↦ "17.01"` (the `__ → .`
replacement runs before `_ → space`). -/
theorem claim_C10_normalizer_examples :
    _folder_name_to_problem_id "1_Two_Sum" = "Two Sum" ∧
    _folder_name_to_problem_id "面试题_17__01" = "17.01" := by
  decide

/-! ## Lemmas about the Slug Resolver -/

/-- Running the loop through `k` consecutive clean pages only prepends their
requests and continues from page `pageNo + k`. -/
lemma findSlugLoop_skip (server : String → Nat → FetchOutcome) (pid : String) :
    ∀ (k pageNo fuel : Nat), (∀ i, i < k → cleanPage server pid (pageNo + i)) →
      findSlugLoop server pid (k + fuel) pageNo =
        match findSlugLoop server pid fuel (pageNo + k) with
        | some (r, t) => some (r, reqsFrom pid pageNo k ++ t)
        | none => none := by
  intro k
  induction k with
  | zero =>
    intro pageNo fuel _
    simp only [Nat.zero_add, Nat.add_zero, reqsFrom]
    cases findSlugLoop server pid fuel pageNo with
    | none => rfl
    | some rt => cases rt with | mk r t => simp
  | succ k ih =>
    intro pageNo fuel h
    obtain ⟨p, hok, hfind, hmore⟩ := h 0 (Nat.succ_pos k)
    rw [Nat.add_zero] at hok
    have hshift : ∀ i, i < k → cleanPage server pid (pageNo + 1 + i) := by
      intro i hi
      have := h (i + 1) (by omega)
      rwa [show pageNo + (i + 1) = pageNo + 1 + i by omega] at this
    have hstep : findSlugLoop server pid (k + 1 + fuel) pageNo
        = match findSlugLoop server pid (k + fuel) (pageNo + 1) with
          | some (r, t) => some (r, (⟨pid, pageNo * page_size, page_size⟩ : PageRequest) :: t)
          | none => none := by
      rw [show k + 1 + fuel = (k + fuel) + 1 by omega]
      simp only [findSlugLoop, hok, hfind, hmore, if_true]
    rw [hstep, ih (pageNo + 1) fuel hshift,
      show pageNo + 1 + k = pageNo + (k + 1) by omega]
    cases findSlugLoop server pid fuel (pageNo + (k + 1)) with
    | none => rfl
    | some rt => cases rt with | mk r t => simp [reqsFrom]

/-- C1: the Slug Resolver scans pages in order.  Provided pages `0, …, k-1`
are clean (well-shaped, no match, `hasMore = true`), then at page `k`: a
question whose `questionFrontendId` equals the input yields the first such
question's `titleSlug`; a well-shaped page with no match and `hasMore = false`
yields exactly "No slug found" with no request beyond page `k`; an exception
yields "No slug found" immediately with no further request.  In particular,
for the single-page mock server with question `{"42", "answer-slug"}` and
`hasMore = false`, input "42" yields "answer-slug" and "43" yields
"No slug found", one page request each. -/
theorem claim_C1_slug_resolver (server : String → Nat → FetchOutcome)
    (pid : String) (k fuel : Nat)
    (hclean : ∀ i, i < k → cleanPage server pid i) :
    (∀ p q, server pid k = .ok p →
        p.questions.find? (fun q' => q'.questionFrontendId == pid) = some q →
        find_leetcode_question_slug_by_problem_id server (k + (fuel + 1)) pid
          = some (q.titleSlug,
              reqsFrom pid 0 k ++ [⟨pid, k * page_size, page_size⟩])) ∧
    (∀ p, server pid k = .ok p →
        p.questions.find? (fun q' => q'.questionFrontendId == pid) = none →
        p.hasMore = false →
        find_leetcode_question_slug_by_problem_id server (k + (fuel + 1)) pid
          = some ("No slug found",
              reqsFrom pid 0 k ++ [⟨pid, k * page_size, page_size⟩])) ∧
    (server pid k = .exn →
        find_leetcode_question_slug_by_problem_id server (k + (fuel + 1)) pid
          = some ("No slug found",
              reqsFrom pid 0 k ++ [⟨pid, k * page_size, page_size⟩])) ∧
    (find_leetcode_question_slug_by_problem_id mockServer 1 "42"
        = some ("answer-slug", [⟨"42", 0, 100⟩]) ∧
     find_leetcode_question_slug_by_problem_id mockServer 1 "43"
        = some ("No slug found", [⟨"43", 0, 100⟩])) := by
  have hclean' : ∀ i, i < k → cleanPage server pid (0 + i) := by
    intro i hi; rw [Nat.zero_add]; exact hclean i hi
  have hskip := findSlugLoop_skip server pid k 0 (fuel + 1) hclean'
  rw [Nat.zero_add] at hskip
  refine ⟨?_, ?_, ?_, by decide, by decide⟩
  · intro p q hok hfind
    rw [find_leetcode_question_slug_by_problem_id, hskip]
    simp [findSlugLoop, hok, hfind]
  · intro p hok hfind hmore
    rw [find_leetcode_question_slug_by_problem_id, hskip]
    simp [findSlugLoop, hok, hfind, hmore]
  · intro hexn
    rw [find_leetcode_question_slug_by_problem_id, hskip]
    simp [findSlugLoop, hexn]

theorem claim_C1_witness :
    find_leetcode_question_slug_by_problem_id mockServer 1 "42"
        = some ("answer-slug", [⟨"42", 0, 100⟩]) ∧
    find_leetcode_question_slug_by_problem_id mockServer 1 "43"
        = some ("No slug found", [⟨"43", 0, 100⟩]) :=
  (claim_C1_slug_resolver mockServer "42" 0 0
    (fun i h => absurd h (Nat.not_lt_zero i))).2.2.2

/-- C5: whenever slug resolution returns the sentinel "No slug found",
`get_leetcode_question_solution_by_problem_id` returns exactly
"No solution article found" and issues zero article-listing requests. -/
theorem claim_C5_short_circuit (server : String → Nat → FetchOutcome)
    (fuel : Nat) (listServer : String → String → ListOutcome)
    (contentServer : String → Option String) (pid : String)
    (t : List PageRequest)
    (h : find_leetcode_question_slug_by_problem_id server fuel pid
      = some ("No slug found", t)) :
    get_leetcode_question_solution_by_problem_id server fuel listServer
      contentServer pid = some ("No solution article found", []) := by
  rw [get_leetcode_question_solution_by_problem_id, h]
  simp

theorem claim_C5_witness :
    get_leetcode_question_solution_by_problem_id benignServer 1 exnListServer
      noneContentServer "7" = some ("No solution article found", []) :=
  claim_C5_short_circuit benignServer 1 exnListServer noneContentServer "7"
    [⟨"7", 0, 100⟩] (by decide)

/-- C6: when the sibling cache file (`problem_zh.md` for language "zh-CN",
`problem.md` otherwise) exists in the file's directory,
`get_leetcode_question_desc` returns its contents verbatim and issues no
remote request at all. -/
theorem claim_C6_cache_hit (language : String) (fs : String → Option String)
    (server : String → Nat → FetchOutcome) (slugFuel fuel : Nat)
    (file_path text : String)
    (h : fs (pathJoin (pathParent file_path)
          (if language == "zh-CN" then "problem_zh.md" else "problem.md"))
        = some text) :
    get_leetcode_question_desc language fs server slugFuel (fuel + 1) file_path
      = some (text, []) := by
  simp only [get_leetcode_question_desc, h]

theorem claim_C6_witness :
    get_leetcode_question_desc "zh-CN" cacheFs benignServer 1 1
      "problems/1_Two_Sum/solution.py" = some ("CACHED", []) :=
  claim_C6_cache_hit "zh-CN" cacheFs benignServer 1 0
    "problems/1_Two_Sum/solution.py" "CACHED" (by decide)

/-- C7: `get_leetcode_question_desc_by_problem_id` forwards the problem id
directly to the slug-based content query, so both agree; the single request
it issues carries the problem id as the `titleSlug` variable (it performs no
slug resolution — the question-list oracle is not even consulted); and on any
failing response it returns exactly "No description found". -/
theorem claim_C7_desc_by_problem_id (language : String)
    (descServer : DescRequest → Except Unit String) (pid : String) :
    get_leetcode_question_desc_by_problem_id language descServer pid
      = _get_leetcode_question_desc_by_slug language descServer pid ∧
    (get_leetcode_question_desc_by_problem_id language descServer pid).2
      = [⟨if language == "zh-CN" then "questionTranslations"
          else "questionContent", pid⟩] ∧
    (∀ e : Unit,
      descServer ⟨if language == "zh-CN" then "questionTranslations"
        else "questionContent", pid⟩ = .error e →
      (get_leetcode_question_desc_by_problem_id language descServer pid).1
        = "No description found") := by
  refine ⟨rfl, ?_, ?_⟩ <;>
    rw [get_leetcode_question_desc_by_problem_id,
      _get_leetcode_question_desc_by_slug] <;>
    cases hl : (language == "zh-CN")
  · simp only [Bool.false_eq_true, if_false]
    cases descServer ⟨"questionContent", pid⟩ <;> rfl
  · simp only [if_true]
    cases descServer ⟨"questionTranslations", pid⟩ <;> rfl
  · simp only [Bool.false_eq_true, if_false]
    intro e h
    simp [h]
  · simp only [if_true]
    intro e h
    simp [h]

theorem claim_C7_witness :
    (get_leetcode_question_desc_by_problem_id "zh-CN" errDescServer "1").1
      = "No description found" :=
  (claim_C7_desc_by_problem_id "zh-CN" errDescServer "1").2.2 () rfl

/-! ## Lemmas about the Solution Fetcher -/

/-- Scanning an author's listing returns the first accepted article with
truthy content, skipping rejected articles. -/
lemma scanArticles_first (contentServer : String → Option String) (n s : String) :
    ∀ (pre : List ArticleNode) (a : ArticleNode) (post : List ArticleNode) (c : String),
      (∀ b ∈ pre, articleRejected contentServer n s b) →
      (a.author.realName == n || a.author.userSlug == s) = true →
      _get_leetcode_article contentServer a.slug = some c → c ≠ "" →
      scanArticles contentServer n s (pre ++ a :: post) = some c := by
  intro pre
  induction pre with
  | nil =>
    intro a post c _ hacc hcont hne
    simp [scanArticles, hacc, hcont, hne]
  | cons b pre ih =>
    intro a post c hrej hacc hcont hne
    have hb := hrej b (List.mem_cons_self b pre)
    have htail := ih a post c
      (fun x hx => hrej x (List.mem_cons_of_mem b hx)) hacc hcont hne
    simp only [articleRejected, contentFails] at hb
    rcases hb with hb | hb
    · simp only [List.cons_append, scanArticles, hb, Bool.false_eq_true, if_false]
      exact htail
    · cases haccb : (b.author.realName == n || b.author.userSlug == s) with
      | false =>
        simp only [List.cons_append, scanArticles, haccb, Bool.false_eq_true, if_false]
        exact htail
      | true =>
        rcases hb with hb | hb
        · simp only [List.cons_append, scanArticles, haccb, if_true, hb]
          exact htail
        · simp only [List.cons_append, scanArticles, haccb, if_true, hb, ne_eq,
            not_true_eq_false, if_false]
          simpa using htail

/-- The author loop requests the allow-listed authors strictly in order; with
every earlier author failing, the first author whose listing scan succeeds
determines the result, and no later author is queried. -/
lemma authorLoop_first (listServer : String → String → ListOutcome)
    (contentServer : String → Option String) (slug : String) :
    ∀ (pre : List (String × String)) (n s : String) (post : List (String × String))
      (arts : List ArticleNode) (c : String),
      (∀ p ∈ pre, authorFails listServer contentServer slug p) →
      listServer slug n = .ok arts →
      scanArticles contentServer n s arts = some c →
      authorLoop listServer contentServer slug (pre ++ (n, s) :: post)
        = (c, pre.map (fun p => (⟨slug, 0, 15, p.1⟩ : ListRequest))
            ++ [⟨slug, 0, 15, n⟩]) := by
  intro pre
  induction pre with
  | nil =>
    intro n s post arts c _ hok hscan
    simp [authorLoop, hok, hscan]
  | cons p pre ih =>
    intro n s post arts c hfail hok hscan
    have hp := hfail p (List.mem_cons_self p pre)
    have htail := ih n s post arts c
      (fun x hx => hfail x (List.mem_cons_of_mem p hx)) hok hscan
    obtain ⟨pn, ps⟩ := p
    simp only [authorFails] at hp
    rcases hp with hp | ⟨arts', hok', hscan'⟩
    · simp only [List.cons_append, authorLoop, hp, htail]
      simp [htail]
    · simp only [List.cons_append, authorLoop, hok', hscan', htail]
      simp [htail]

/-- When every allow-listed author fails, the loop returns the error sentinel
after having queried each author once, in order. -/
lemma authorLoop_exhausted (listServer : String → String → ListOutcome)
    (contentServer : String → Option String) (slug : String) :
    ∀ authors : List (String × String),
      (∀ p ∈ authors, authorFails listServer contentServer slug p) →
      authorLoop listServer contentServer slug authors
        = ("Error fetching solution article",
           authors.map fun p => (⟨slug, 0, 15, p.1⟩ : ListRequest)) := by
  intro authors
  induction authors with
  | nil => intro _; simp [authorLoop]
  | cons p rest ih =>
    intro hfail
    have hp := hfail p (List.mem_cons_self p rest)
    have htail := ih (fun x hx => hfail x (List.mem_cons_of_mem p hx))
    obtain ⟨pn, ps⟩ := p
    simp only [authorFails] at hp
    rcases hp with hp | ⟨arts', hok', hscan'⟩
    · simp only [authorLoop, hp, htail]
      simp [htail]
    · simp only [authorLoop, hok', hscan', htail]
      simp [htail]

/-- C4: after successful slug resolution the Solution Fetcher tries authors
strictly in allow-list order and articles in server order; an article is
accepted when its profile's `realName` equals the display name OR its
`userSlug` equals the handle; the first accepted article with non-empty
content is returned at once (no later author queried); exhausting all authors
yields exactly "Error fetching solution article". -/
theorem claim_C4_solution_fetcher :
    (∀ (contentServer : String → Option String) (n s : String)
        (pre : List ArticleNode) (a : ArticleNode) (post : List ArticleNode)
        (c : String),
      (∀ b ∈ pre, articleRejected contentServer n s b) →
      (a.author.realName == n || a.author.userSlug == s) = true →
      _get_leetcode_article contentServer a.slug = some c → c ≠ "" →
      scanArticles contentServer n s (pre ++ a :: post) = some c) ∧
    (∀ (listServer : String → String → ListOutcome)
        (contentServer : String → Option String) (slug : String)
        (pre : List (String × String)) (n s : String)
        (post : List (String × String)) (arts : List ArticleNode) (c : String),
      (∀ p ∈ pre, authorFails listServer contentServer slug p) →
      listServer slug n = .ok arts →
      scanArticles contentServer n s arts = some c →
      authorLoop listServer contentServer slug (pre ++ (n, s) :: post)
        = (c, pre.map (fun p => (⟨slug, 0, 15, p.1⟩ : ListRequest))
            ++ [⟨slug, 0, 15, n⟩])) ∧
    (∀ (listServer : String → String → ListOutcome)
        (contentServer : String → Option String) (slug : String)
        (authors : List (String × String)),
      (∀ p ∈ authors, authorFails listServer contentServer slug p) →
      authorLoop listServer contentServer slug authors
        = ("Error fetching solution article",
           authors.map fun p => (⟨slug, 0, 15, p.1⟩ : ListRequest))) ∧
    (∀ (server : String → Nat → FetchOutcome) (fuel : Nat)
        (listServer : String → String → ListOutcome)
        (contentServer : String → Option String) (pid slug : String)
        (t : List PageRequest),
      find_leetcode_question_slug_by_problem_id server fuel pid = some (slug, t) →
      slug ≠ "No slug found" →
      get_leetcode_question_solution_by_problem_id server fuel listServer
          contentServer pid
        = some (authorLoop listServer contentServer slug WANTED_AUTHORS)) := by
  refine ⟨scanArticles_first, authorLoop_first, authorLoop_exhausted, ?_⟩
  intro server fuel listServer contentServer pid slug t h hne
  rw [get_leetcode_question_solution_by_problem_id, h]
  simp [hne]

theorem claim_C4_witness :
    authorLoop listServerC4 contentServerC4 "answer-slug" WANTED_AUTHORS
      = ("SOLUTION", [⟨"answer-slug", 0, 15, "宫水三叶"⟩,
          ⟨"answer-slug", 0, 15, "灵茶山艾府"⟩]) ∧
    get_leetcode_question_solution_by_problem_id mockServer 1 listServerC4
        contentServerC4 "42"
      = some (authorLoop listServerC4 contentServerC4 "answer-slug" WANTED_AUTHORS) := by
  constructor
  · have h := claim_C4_solution_fetcher.2.1 listServerC4 contentServerC4 "answer-slug"
      [("宫水三叶", "ac_oier")] "灵茶山艾府" "endlesscheng" [] artsC4 "SOLUTION"
      (fun p hp => by
        have hp' : p = ("宫水三叶", "ac_oier") := by simpa using hp
        subst hp'
        exact Or.inl (by decide))
      (by decide) (by decide)
    simpa [WANTED_AUTHORS] using h
  · exact claim_C4_solution_fetcher.2.2.2 mockServer 1 listServerC4 contentServerC4
      "42" "answer-slug" [⟨"42", 0, 100⟩] (by decide) (by decide)

/-! ## The self-recursion of `get_leetcode_question_desc` (src/main.py:357)

After a cache miss the source calls `get_leetcode_question_desc(slug)` — the
resolved slug (or the sentinel "No slug found") is fed back into the
`file_path` parameter.  The lemmas below show every such recursion step, and
that on a slug string with no directory part the recursion reaches the
keyword `""`, resolves to "No slug found", and then recurs on "No slug found"
forever. -/

/-- One unfolding of the cache-miss branch with the empty file system. -/
lemma desc_step (server : String → Nat → FetchOutcome) (fp slug' : String)
    (req : PageRequest)
    (hslug : find_leetcode_question_slug server 1 fp = some (slug', [req]))
    (m : Nat) :
    get_leetcode_question_desc "zh-CN" emptyFs server 1 (m + 1) fp
      = match get_leetcode_question_desc "zh-CN" emptyFs server 1 m slug' with
        | none => none
        | some (r, t) => some (r, req :: t) := by
  simp only [get_leetcode_question_desc, emptyFs, hslug]
  cases get_leetcode_question_desc "zh-CN" emptyFs server 1 m slug' with
  | none => rfl
  | some rt => cases rt with | mk r t => simp

/-- A path whose parent directory name normalizes to the empty keyword
resolves to the sentinel against a server whose page 0 for keyword `""` is an
empty final page. -/
lemma slug_resolves_empty_keyword (server : String → Nat → FetchOutcome)
    (fp : String)
    (hkw : _folder_name_to_problem_id (pathName (pathParent fp)) = "")
    (h0 : server "" 0 = .ok ⟨[], false⟩) :
    find_leetcode_question_slug server 1 fp
      = some ("No slug found", [⟨"", 0, 100⟩]) := by
  rw [find_leetcode_question_slug, hkw, find_leetcode_question_slug_by_problem_id]
  simp [findSlugLoop, h0, page_size]

/-- Recursing on the sentinel string never returns, at any depth. -/
lemma desc_noslug_diverges (server : String → Nat → FetchOutcome)
    (h0 : server "" 0 = .ok ⟨[], false⟩) :
    ∀ n, get_leetcode_question_desc "zh-CN" emptyFs server 1 n "No slug found"
      = none := by
  intro n
  induction n with
  | zero => rfl
  | succ n ih =>
    rw [desc_step server "No slug found" "No slug found" ⟨"", 0, 100⟩
      (slug_resolves_empty_keyword server "No slug found" (by decide) h0) n, ih]

/-- C2: refuted by the code as written.  With no cached file and a well-
behaved server on which every single request terminates (every page is an
empty final page, so every slug resolution returns the sentinel),
`get_leetcode_question_desc` on `"problems/1_Two_Sum/solution.py"` never
returns for any recursion depth: line 357 feeds the resolved value — here the
sentinel "No slug found" — back into the `file_path` parameter, recursing
forever instead of returning a string. -/
theorem claim_C2_desc_not_total (fuel : Nat) :
    get_leetcode_question_desc "zh-CN" emptyFs benignServer 1 fuel
      "problems/1_Two_Sum/solution.py" = none := by
  cases fuel with
  | zero => rfl
  | succ m =>
    rw [desc_step benignServer "problems/1_Two_Sum/solution.py" "No slug found"
      ⟨"Two Sum", 0, 100⟩ (by decide) m]
    rw [desc_noslug_diverges benignServer rfl m]

/-- Recursing on the resolved slug `"two-sum"` (as a file path) never
returns: its parent is `"."`, whose name normalizes to the empty keyword. -/
lemma desc_twosum_diverges :
    ∀ n, get_leetcode_question_desc "zh-CN" emptyFs pageServerC3 1 n "two-sum"
      = none := by
  intro n
  cases n with
  | zero => rfl
  | succ m =>
    rw [desc_step pageServerC3 "two-sum" "No slug found" ⟨"", 0, 100⟩
      (slug_resolves_empty_keyword pageServerC3 "two-sum" (by decide) (by decide)) m]
    rw [desc_noslug_diverges pageServerC3 (by decide) m]

/-- C3: refuted by the code as written.  On a cache miss the slug resolution
succeeds (the folder `1_Two_Sum` resolves to "two-sum"), and the slug-based
content query `_get_leetcode_question_desc_by_slug` would return the
description for "two-sum" — yet `get_leetcode_question_desc` never invokes
it: line 357 recurses into `get_leetcode_question_desc` itself with the slug
as a file path, and that recursion never returns at any depth. -/
theorem claim_C3_desc_no_convergence :
    find_leetcode_question_slug pageServerC3 1 "problems/1_Two_Sum/solution.py"
      = some ("two-sum", [⟨"Two Sum", 0, 100⟩]) ∧
    (_get_leetcode_question_desc_by_slug "zh-CN" descServerC3 "two-sum").1
      = "TWO-SUM-DESC" ∧
    ∀ fuel, get_leetcode_question_desc "zh-CN" emptyFs pageServerC3 1 fuel
        "problems/1_Two_Sum/solution.py" = none := by
  refine ⟨by decide, by decide, ?_⟩
  intro fuel
  cases fuel with
  | zero => rfl
  | succ m =>
    rw [desc_step pageServerC3 "problems/1_Two_Sum/solution.py" "two-sum"
      ⟨"Two Sum", 0, 100⟩ (by decide) m]
    rw [desc_twosum_diverges m]

end LeetCodeMCP
